import Mathlib

/-!
Verification development for the mcp-filesystem-server repository.

The repository ships a Go MCP server whose `main.go` loads configuration,
sets up logging and hands an allowed-directory list to
`filesystemserver.NewFilesystemServer`.  The `filesystemserver` package
itself (PathGuard, FileOps, DirectoryWalker, ToolDispatcher) is not part
of the source tree available here, so those components are modelled from
the specification; `main.go` and the CLI variant of `main` are embedded
directly from the source.
-/

namespace FilesystemServer

/-! ## Path model

Paths are modelled as lists of name segments (the canonical, absolute,
separator-split form).  A raw caller-supplied path is a `String` which is
split on the separator character. -/

/-- Split a character list on the separator, accumulating the current
segment in reverse. -/
def splitSegsAux : List Char → List Char → List String
  | [], cur => [String.mk cur.reverse]
  | c :: rest, cur =>
    if c = '/' then String.mk cur.reverse :: splitSegsAux rest []
    else splitSegsAux rest (c :: cur)

/-- Split a raw path string into its separator-delimited segments. -/
def splitSegs (s : String) : List String :=
  splitSegsAux s.data []

/-- Modelled from the spec: lexical cleaning of a path (section 4.1,
"resolving `.`/`..` segments").  Empty and `.` segments are dropped; a
`..` segment pops the previous segment (at the root it is dropped, as
`filepath.Clean` does for absolute paths).  The accumulator holds the
already-processed segments in reverse. -/
def segCleanAux : List String → List String → List String
  | acc, [] => acc.reverse
  | acc, s :: rest =>
    if s = "" ∨ s = "." then segCleanAux acc rest
    else if s = ".." then segCleanAux (acc.drop 1) rest
    else segCleanAux (s :: acc) rest

/-- Lexical cleaning of a segment list. -/
def segClean (p : List String) : List String :=
  segCleanAux [] p

/-- Modelled from the spec: symlink resolution to the final target
(section 4.1, "following symlinks to their final target").  The link
table maps a cleaned path to its target when that path is a symlink.
Resolution is fuelled to rule out cycles; exhausted fuel means the path
fails canonicalization. -/
def resolvePath (links : List String → Option (List String)) :
    Nat → List String → Option (List String)
  | 0, _ => none
  | fuel + 1, p =>
    match links (segClean p) with
    | none => some (segClean p)
    | some target => resolvePath links fuel target

/-- Segment-wise containment test: `isUnder root p` holds when `p` is a
descendant of (or equal to) `root`, i.e. `root` is an initial run of
`p`'s segments. -/
def isUnder : List String → List String → Bool
  | [], _ => true
  | _ :: _, [] => false
  | a :: as, b :: bs => a == b && isUnder as bs

/-- Errors surfaced by path validation (spec section 7). -/
inductive AccessError where
  | invalidPath
  | accessDenied
  deriving DecidableEq, Repr

/-- Modelled from the spec: the output of PathGuard — an absolute,
symlink-resolved path plus the AllowedRoot that contains it
(spec section 3, ValidatedPath). -/
structure ValidatedPath where
  resolved : List String
  root : List String
  deriving DecidableEq, Repr

/-- Modelled from the spec: PathGuard's
`validate(rawPath, allowedRoots) -> ValidatedPath | AccessError`
(spec section 4.1).  Rejects empty input, canonicalizes (lexical
cleaning plus symlink resolution to the final target), and accepts only
when the canonical form falls under at least one allowed root. -/
def validate (links : List String → Option (List String)) (fuel : Nat)
    (roots : List (List String)) (raw : String) :
    Except AccessError ValidatedPath :=
  if raw = "" then .error .invalidPath
  else
    match resolvePath links fuel (splitSegs raw) with
    | none => .error .invalidPath
    | some canon =>
      match roots.find? (fun r => isUnder r canon) with
      | some r => .ok ⟨canon, r⟩
      | none => .error .accessDenied

/-! ## Filesystem state model

For FileOps (spec section 4.3) the live filesystem is modelled as an
association list from canonical paths to entries; an entry is a regular
file carrying its content or a directory. -/

/-- A filesystem entry at a canonical path. -/
inductive Entry where
  | file (content : String)
  | dir
  deriving DecidableEq, Repr

/-- The filesystem state: canonical path to entry. -/
abbrev FS := List (List String × Entry)

/-- Look up the entry stored at a canonical path. -/
def lookupFS (fs : FS) (p : List String) : Option Entry :=
  match fs with
  | [] => none
  | (q, e) :: rest => if q = p then some e else lookupFS rest p

/-- Store an entry at a canonical path, replacing any previous entry. -/
def storeFS (fs : FS) (p : List String) (e : Entry) : FS :=
  (p, e) :: fs.filter (fun pe => pe.1 ≠ p)

/-- Typed operation errors (spec section 7). -/
inductive FsError where
  | invalidPath
  | accessDenied
  | notFound
  | contentNotFound
  | alreadyExists
  | tooLarge
  | ioError
  deriving DecidableEq, Repr

/-- Modelled from the spec: FileOps `read` (spec section 4.3) — returns
the full content of a regular file up to the configured maximum size;
exceeding the limit is a `TooLarge` error, never a truncation. -/
def readFile (maxSize : Nat) (fs : FS) (p : List String) :
    Except FsError String :=
  match lookupFS fs p with
  | none => .error .notFound
  | some .dir => .error .ioError
  | some (.file c) =>
    if c.length > maxSize then .error .tooLarge else .ok c

/-- Modelled from the spec: FileOps `write` (spec section 4.3) — creates
or overwrites the file at the target path with the given content,
subject to the configured maximum size. -/
def writeFile (maxSize : Nat) (fs : FS) (p : List String) (c : String) :
    Except FsError FS :=
  if c.length > maxSize then .error .tooLarge
  else .ok (storeFS fs p (.file c))

/-- Does the needle character list occur at the head of the haystack? -/
def beginsWith : List Char → List Char → Bool
  | [], _ => true
  | _ :: _, [] => false
  | a :: as, b :: bs => a == b && beginsWith as bs

/-- Does the needle occur anywhere in the haystack? -/
def occursAux (n : List Char) : List Char → Bool
  | [] => beginsWith n []
  | c :: t => beginsWith n (c :: t) || occursAux n t

/-- Does the search string occur in the content string? -/
def occursIn (needle hay : String) : Bool :=
  occursAux needle.data hay.data

/-- Replace every occurrence of the needle in the haystack. -/
def replaceAux (n r : List Char) : List Char → List Char
  | [] => []
  | c :: t =>
    if n ≠ [] ∧ beginsWith n (c :: t) then
      r ++ replaceAux n r (t.drop (n.length - 1))
    else c :: replaceAux n r t
  termination_by l => l.length
  decreasing_by
  · simp only [List.length_drop, List.length_cons]
    omega
  · simp

/-- Modelled from the spec: FileOps `modify` (spec section 4.3) —
exact-text find/replace on a file's full content, written back; when the
search text does not occur the operation fails with content-level
not-found semantics and the filesystem is returned unchanged.  The pair
carries the (possibly updated) filesystem and the outcome. -/
def modifyFile (fs : FS) (p : List String) (findText replText : String) :
    FS × Except FsError Unit :=
  match lookupFS fs p with
  | none => (fs, .error .notFound)
  | some .dir => (fs, .error .ioError)
  | some (.file c) =>
    if occursIn findText c then
      (storeFS fs p (.file (String.mk (replaceAux findText.data replText.data c.data))),
       .ok ())
    else (fs, .error .contentNotFound)

/-- Modelled from the spec: FileOps `create_directory` (spec section
4.3) — idempotent: succeeds when the path does not exist (creating it)
or already exists as a directory; fails when the path exists as a
non-directory. -/
def createDirectory (fs : FS) (p : List String) :
    FS × Except FsError Unit :=
  match lookupFS fs p with
  | none => (storeFS fs p .dir, .ok ())
  | some .dir => (fs, .ok ())
  | some (.file _) => (fs, .error .alreadyExists)

/-! ## Batch dispatch model

The ToolDispatcher (spec section 4.5) aggregates per-target outcomes for
multi-path requests into an ordered sequence of OperationResult. -/

/-- Modelled from the spec: per-target outcome of a batch operation —
either a success payload or a typed error (spec section 3,
OperationResult). -/
inductive OperationResult where
  | success (content : String)
  | failure (e : FsError)
  deriving DecidableEq, Repr

/-- Modelled from the spec: processing of one target of
`read_multiple_files` — the path is dispatched through PathGuard first
and, when validation succeeds, read like a single-target read (spec
sections 4.3 and 4.5). -/
def readOneResult (links : List String → Option (List String))
    (fuel maxSize : Nat) (roots : List (List String)) (fs : FS)
    (raw : String) : OperationResult :=
  match validate links fuel roots raw with
  | .error .invalidPath => .failure .invalidPath
  | .error .accessDenied => .failure .accessDenied
  | .ok vp =>
    match readFile maxSize fs vp.resolved with
    | .error e => .failure e
    | .ok c => .success c

/-- Modelled from the spec: `read_multiple_files` — one OperationResult
per input path, in input order; a failure on one target never aborts
processing of the others (spec sections 3, 4.5 and 7). -/
def readMultipleFiles (links : List String → Option (List String))
    (fuel maxSize : Nat) (roots : List (List String)) (fs : FS) :
    List String → List OperationResult
  | [] => []
  | raw :: rest =>
    readOneResult links fuel maxSize roots fs raw ::
      readMultipleFiles links fuel maxSize roots fs rest

/-! ## Directory tree model

The DirectoryWalker's `tree` operation (spec section 4.4) renders a
directory recursively, bounded by a maximum depth; symlinked directories
appear as leaf entries rather than being traversed. -/

/-- A node of the live directory structure being rendered. -/
inductive FsNode where
  | file (name : String)
  | symlink (name : String)
  | dir (name : String) (children : List FsNode)
  deriving Repr

/-- The kind tag carried by a rendered tree entry. -/
inductive EntryKind where
  | file
  | symlink
  | dir
  deriving DecidableEq, Repr

/-- A rendered tree entry: a name, its kind, and its rendered
children. -/
inductive TreeEntry where
  | entry (name : String) (kind : EntryKind) (children : List TreeEntry)
  deriving Repr

/-- Modelled from the spec: DirectoryWalker `tree` (spec section 4.4) —
recursive rendering bounded by the maximum depth parameter; at depth 0 a
directory is rendered without children; symlinks are leaf entries and
are never traversed. -/
def treeRender : Nat → FsNode → TreeEntry
  | _, .file n => .entry n .file []
  | _, .symlink n => .entry n .symlink []
  | 0, .dir n _ => .entry n .dir []
  | d + 1, .dir n cs => .entry n .dir (cs.map (treeRender d))

/-- Depth bound check on a rendered tree: at bound 0 the entry has no
children; at bound `d + 1` every child respects bound `d`. -/
def entryWithinDepth : Nat → TreeEntry → Bool
  | 0, .entry _ _ cs => cs.isEmpty
  | d + 1, .entry _ _ cs => cs.all (entryWithinDepth d)

/-- The children of a rendered tree entry. -/
def entryChildren : TreeEntry → List TreeEntry
  | .entry _ _ cs => cs

/-! ## Embedding of `main.go`

`loadConfig`, `setupLogger` and the control flow of `main` up to the
construction of the filesystem server, translated from `src/main.go`.
Filesystem-path values handed around by this code (executable path, log
file path) are lists of segments; the outcomes of the OS calls
`os.Executable` and `os.OpenFile` / `toml.DecodeFile` enter as explicit
parameters. -/

/-- Embedding of `LogConfig` from `src/main.go`. -/
structure LogConfig where
  level : String
  format : String
  output : String
  filePath : String
  deriving DecidableEq, Repr

/-- Embedding of `DirectoriesConfig` from `src/main.go`. -/
structure DirectoriesConfig where
  allowed : List String
  deriving DecidableEq, Repr

/-- Embedding of `Config` from `src/main.go`. -/
structure Config where
  directories : DirectoriesConfig
  logging : LogConfig
  deriving DecidableEq, Repr

/-- The default configuration built inside `loadConfig` when the config
file is missing or fails to parse (`src/main.go` lines 58-69). -/
def defaultConfig : Config :=
  { directories := { allowed := ["."] },
    logging :=
      { level := "info", format := "json", output := "file",
        filePath := "mcp-filesystem-server.log" } }

/-- Embedding of `loadConfig` from `src/main.go` (lines 45-73).  `execPath` is the
outcome of `os.Executable` (none on failure); `decodeResult` is the
outcome of `toml.DecodeFile` on `config.toml` next to the executable
(none when the file is missing or fails to parse). -/
def loadConfig (execPath : Option (List String))
    (decodeResult : Option Config) : Except String Config :=
  match execPath with
  | none => .error "failed to get executable path"
  | some _ =>
    match decodeResult with
    | none => .ok defaultConfig
    | some c => .ok c

/-- The sink a slog handler writes to.  `stdoutSink` and `stderrSink`
exist in the environment (`os.Stdout`, `os.Stderr`) but `setupLogger`
never selects them. -/
inductive LogSink where
  | file (path : List String)
  | stdoutSink
  | stderrSink
  | discard
  deriving DecidableEq, Repr

/-- slog levels used by `setupLogger`. -/
inductive LogLevel where
  | debug
  | info
  | warn
  | error
  deriving DecidableEq, Repr

/-- slog handler kind chosen by `setupLogger`. -/
inductive HandlerKind where
  | text
  | json
  deriving DecidableEq, Repr

/-- The logger value produced by `setupLogger`: where it writes, at
which level, in which format. -/
structure Logger where
  sink : LogSink
  level : LogLevel
  kind : HandlerKind
  deriving DecidableEq, Repr

/-- Does `s` end with the given trailer string? -/
def strEndsWith (s trailer : String) : Bool :=
  beginsWith trailer.data.reverse s.data.reverse

/-- Drop the last `k` characters of a string. -/
def strDropRight (s : String) (k : Nat) : String :=
  String.mk (s.data.take (s.data.length - k))

/-- The log-level switch in `setupLogger` (`src/main.go` lines 92-104):
the four known names map to their levels, anything else defaults to
info. -/
def parseLogLevel (s : String) : LogLevel :=
  if s = "debug" then .debug
  else if s = "info" then .info
  else if s = "warn" then .warn
  else if s = "error" then .error
  else .info

/-- The default log file name derived from the executable's base name in
`setupLogger` (`src/main.go` lines 83-89): the `.exe` extension is
stripped if present and `.log` is appended. -/
def logFileNameOf (execName : String) : String :=
  (if strEndsWith execName ".exe" then strDropRight execName 4
   else execName) ++ ".log"

/-- Model of Go's `filepath.Join(dir, p)`: the relative path `p` is
split into its separator-delimited segments, appended to `dir`, and the
result is cleaned (`.`/`..`/empty segments resolved), so a multi-segment
`p` such as `logs/app.log` lands in a subdirectory of `dir` and a `..`
segment in `p` can leave `dir`. -/
def joinPath (dir : List String) (p : String) : List String :=
  segClean (dir ++ splitSegs p)

/-- Embedding of `setupLogger` from `src/main.go` (lines 75-148).
`openOk` is the outcome of `os.OpenFile` at a given path; `execPath` is
the outcome of `os.Executable`, as segments.  Every branch returns
either a file handler on `filepath.Join(execDir, logPath)` — where
`logPath` is the configured file path or the derived executable-name log
file — or a discard handler. -/
def setupLogger (openOk : List String → Bool)
    (execPath : Option (List String)) (config : Config) : Logger :=
  match execPath with
  | none => { sink := .discard, level := .info, kind := .json }
  | some segs =>
    let execDir := segs.dropLast
    let logFileName := logFileNameOf (segs.getLastD "")
    let logLevel := parseLogLevel config.logging.level
    if config.logging.output = "file" ∧ config.logging.filePath ≠ "" then
      let logPath :=
        if config.logging.filePath = "mcp-filesystem-server.log" then
          logFileName
        else config.logging.filePath
      let logFilePath := joinPath execDir logPath
      if openOk logFilePath then
        { sink := .file logFilePath, level := logLevel,
          kind := if config.logging.format = "text" then .text else .json }
      else { sink := .discard, level := logLevel, kind := .json }
    else
      let defaultLogPath := joinPath execDir logFileName
      if openOk defaultLogPath then
        { sink := .file defaultLogPath, level := logLevel,
          kind := if config.logging.format = "text" then .text else .json }
      else { sink := .discard, level := logLevel, kind := .json }

/-- How far `main` gets before handing an allowed-directory list to
`filesystemserver.NewFilesystemServer`: either it exits (status 1)
before the server is ever constructed, or it reaches the
`NewFilesystemServer` call with the given directory list. -/
inductive MainOutcome where
  | exitedBeforeServer
  | calledNewFilesystemServer (dirs : List String)
  deriving DecidableEq, Repr

/-- The control flow of `main` in `src/main.go` (lines 192-223) up to
the `NewFilesystemServer` call: a config-load error exits with status 1;
an empty allowed-directory list exits with status 1; otherwise the
server is constructed with the configured list. -/
def mainTomlOutcome (execPath : Option (List String))
    (decodeResult : Option Config) : MainOutcome :=
  match loadConfig execPath decodeResult with
  | .error _ => .exitedBeforeServer
  | .ok config =>
    if config.directories.allowed.length = 0 then .exitedBeforeServer
    else .calledNewFilesystemServer config.directories.allowed

/-- Does `s` start with the given leader string? -/
def strStartsWith (s leader : String) : Bool :=
  beginsWith leader.data s.data

/-- The argument-vetting loop of the CLI variant of `main`
(`src/unnamed/part_000` lines 183-191): arguments are accepted in order
until one starting with `-` is met, which exits the process (modelled as
none). -/
def collectValidDirs : List String → Option (List String)
  | [] => some []
  | a :: rest =>
    if strStartsWith a "-" then none
    else (collectValidDirs rest).map (fun ds => a :: ds)

/-- The control flow of the CLI variant of `main`
(`src/unnamed/part_000` lines 169-205) up to the `NewFilesystemServer`
call: fewer than two entries in `os.Args` exits with status 1; an
argument starting with `-` exits with status 1; otherwise the server is
constructed with the argument list.  `args` is `os.Args[1:]`. -/
def mainCliOutcome (args : List String) : MainOutcome :=
  if args.length < 1 then .exitedBeforeServer
  else
    match collectValidDirs args with
    | none => .exitedBeforeServer
    | some dirs => .calledNewFilesystemServer dirs

/-! ## Shared lemmas -/

/-- Looking up a path right after storing an entry there yields that
entry. -/
theorem lookupFS_storeFS_self (fs : FS) (p : List String) (e : Entry) :
    lookupFS (storeFS fs p e) p = some e := by
  simp [storeFS, lookupFS]

/-- When the argument-vetting loop accepts, it accepts every argument in
order. -/
theorem collectValidDirs_some (args dirs : List String)
    (h : collectValidDirs args = some dirs) : dirs = args := by
  induction args generalizing dirs with
  | nil => exact (Option.some.inj h).symm
  | cons a rest ih =>
    simp only [collectValidDirs] at h
    split at h
    · exact absurd h (by simp)
    · cases hc : collectValidDirs rest with
      | none => rw [hc] at h; simp at h
      | some ds =>
        rw [hc] at h
        have h2 : a :: ds = dirs := Option.some.inj h
        rw [← h2, ih ds hc]

/-- The argument-vetting loop rejects any argument list holding a
flag-like argument. -/
theorem collectValidDirs_flag (args : List String) (a : String)
    (hmem : a ∈ args) (hflag : strStartsWith a "-" = true) :
    collectValidDirs args = none := by
  induction args with
  | nil => cases hmem
  | cons b rest ih =>
    simp only [collectValidDirs]
    rcases List.mem_cons.mp hmem with h | h
    · rw [h] at hflag
      simp [hflag]
    · split
      · rfl
      · rw [ih h]
        rfl

/-! ## Claim theorems -/

/-- C1: for every raw path whose canonical, symlink-resolved form lies
outside every configured allowed root, PathGuard's validate returns
AccessDenied (covering escapes through traversal segments and through
symlinks, both of which are folded into the canonical form); and every
ValidatedPath that validate does return resolves to a descendant of, or
is equal to, its owning allowed root, which is one of the configured
roots. -/
theorem c1_validate_confines (links : List String → Option (List String))
    (fuel : Nat) (roots : List (List String)) (raw : String) :
    (∀ canon, raw ≠ "" →
      resolvePath links fuel (splitSegs raw) = some canon →
      (∀ r ∈ roots, isUnder r canon = false) →
      validate links fuel roots raw = .error .accessDenied)
    ∧ (∀ vp, validate links fuel roots raw = .ok vp →
        isUnder vp.root vp.resolved = true ∧ vp.root ∈ roots) := by
  constructor
  · intro canon hne hres hout
    cases hf : roots.find? (fun r => isUnder r canon) with
    | none => simp [validate, if_neg hne, hres, hf]
    | some r =>
      exfalso
      have h1 : isUnder r canon = true := by
        simpa using List.find?_some hf
      rw [hout r (List.mem_of_find?_eq_some hf)] at h1
      cases h1
  · intro vp hok
    by_cases hraw : raw = ""
    · simp [validate, if_pos hraw] at hok
    · cases hres : resolvePath links fuel (splitSegs raw) with
      | none => simp [validate, if_neg hraw, hres] at hok
      | some canon =>
        cases hf : roots.find? (fun r => isUnder r canon) with
        | none => simp [validate, if_neg hraw, hres, hf] at hok
        | some r =>
          have hok2 : Except.ok (ε := AccessError) (ValidatedPath.mk canon r) =
              Except.ok vp := by
            rw [← hok]
            simp [validate, if_neg hraw, hres, hf]
          have hvp : vp = ValidatedPath.mk canon r := (Except.ok.inj hok2).symm
          subst hvp
          exact ⟨by simpa using List.find?_some hf, List.mem_of_find?_eq_some hf⟩

/-- C1 witness: concrete runs of validate — a path outside the sole
allowed root is denied, and the validated path returned for an inside
path sits under its owning root. -/
theorem c1_validate_confines_witness :
    validate (fun _ => none) 2 [["a"]] "/b" = .error .accessDenied ∧
    (isUnder (ValidatedPath.mk ["a", "x"] ["a"]).root
        (ValidatedPath.mk ["a", "x"] ["a"]).resolved = true ∧
      (ValidatedPath.mk ["a", "x"] ["a"]).root ∈ [["a"]]) :=
  ⟨(c1_validate_confines (fun _ => none) 2 [["a"]] "/b").1 ["b"]
      (by decide) (by decide) (by decide),
    (c1_validate_confines (fun _ => none) 2 [["a"]] "/a/x").2
      (ValidatedPath.mk ["a", "x"] ["a"]) (by rfl)⟩

/-- C2: a multi-target read over N input paths yields exactly N
operation results, the result at every index being exactly the
single-target processing of the input path at that index — so results
preserve input order and a failure on one path never disturbs the
processing of any other. -/
theorem c2_read_multiple_files_pointwise
    (links : List String → Option (List String)) (fuel maxSize : Nat)
    (roots : List (List String)) (fs : FS) (paths : List String) :
    (readMultipleFiles links fuel maxSize roots fs paths).length =
      paths.length
    ∧ ∀ i : Nat,
        (readMultipleFiles links fuel maxSize roots fs paths)[i]? =
          (paths[i]?).map (readOneResult links fuel maxSize roots fs) := by
  induction paths with
  | nil => exact ⟨rfl, fun i => by simp [readMultipleFiles]⟩
  | cons p rest ih =>
    refine ⟨by simpa [readMultipleFiles] using ih.1, fun i => ?_⟩
    cases i with
    | zero => simp [readMultipleFiles]
    | succ j =>
      simpa [readMultipleFiles, List.getElem?_cons_succ] using ih.2 j

/-- C3: writing content within the size limit to a validated path and
then reading that path back returns exactly the written content. -/
theorem c3_write_read_roundtrip (links : List String → Option (List String))
    (fuel maxSize : Nat) (roots : List (List String)) (fs : FS)
    (raw : String) (vp : ValidatedPath) (c : String) (fs2 : FS)
    (hv : validate links fuel roots raw = .ok vp)
    (hsize : c.length ≤ maxSize)
    (hw : writeFile maxSize fs vp.resolved c = .ok fs2) :
    readFile maxSize fs2 vp.resolved = .ok c := by
  unfold writeFile at hw
  rw [if_neg (by omega)] at hw
  have hfs2 : fs2 = storeFS fs vp.resolved (.file c) := (Except.ok.inj hw).symm
  subst hfs2
  simp only [readFile, lookupFS_storeFS_self]
  rw [if_neg (by omega)]

/-- C3 witness: a concrete write of "hi" under the allowed root,
followed by a read of the same path, returns "hi". -/
theorem c3_write_read_roundtrip_witness :
    readFile 5 (storeFS [] ["a", "x"] (.file "hi")) ["a", "x"] = .ok "hi" :=
  c3_write_read_roundtrip (fun _ => none) 2 5 [["a"]] [] "/a/x"
    (ValidatedPath.mk ["a", "x"] ["a"]) "hi"
    (storeFS [] ["a", "x"] (.file "hi"))
    (by rfl) (by decide) (by rfl)

/-- C4: reading a file whose stored content exceeds the configured
maximum yields a TooLarge error; a file within the limit is returned in
full; and a successful read is never a truncation — it returns exactly
the stored content. -/
theorem c4_read_full_or_toolarge (maxSize : Nat) (fs : FS)
    (p : List String) (c : String)
    (hfile : lookupFS fs p = some (.file c)) :
    (c.length > maxSize → readFile maxSize fs p = .error .tooLarge)
    ∧ (c.length ≤ maxSize → readFile maxSize fs p = .ok c)
    ∧ (∀ s, readFile maxSize fs p = .ok s → s = c) := by
  refine ⟨?_, ?_, ?_⟩
  · intro hgt
    simp only [readFile, hfile]
    rw [if_pos hgt]
  · intro hle
    simp only [readFile, hfile]
    rw [if_neg (by omega)]
  · intro s hs
    simp only [readFile, hfile] at hs
    by_cases h : c.length > maxSize
    · rw [if_pos h] at hs
      cases hs
    · rw [if_neg h] at hs
      exact (Except.ok.inj hs).symm

/-- C4 witness: a 5-character file read under a 3-byte ceiling is a
TooLarge error; the same file under a 9-byte ceiling is returned in
full. -/
theorem c4_read_full_or_toolarge_witness :
    readFile 3 [(["a", "f"], .file "hello")] ["a", "f"] =
      .error .tooLarge
    ∧ readFile 9 [(["a", "f"], .file "hello")] ["a", "f"] = .ok "hello" :=
  ⟨(c4_read_full_or_toolarge 3 [(["a", "f"], .file "hello")] ["a", "f"]
      "hello" (by rfl)).1 (by decide),
    (c4_read_full_or_toolarge 9 [(["a", "f"], .file "hello")] ["a", "f"]
      "hello" (by rfl)).2.1 (by decide)⟩

/-- C5: modify on a file whose content lacks the search text fails with
the content-level not-found error — an error distinct from
path-not-found — and returns the filesystem unchanged, leaving the
file's bytes untouched. -/
theorem c5_modify_content_not_found (fs : FS) (p : List String)
    (c findText replText : String)
    (hfile : lookupFS fs p = some (.file c))
    (hnot : occursIn findText c = false) :
    modifyFile fs p findText replText = (fs, .error .contentNotFound)
    ∧ FsError.contentNotFound ≠ FsError.notFound := by
  constructor
  · simp only [modifyFile, hfile]
    rw [if_neg (by simp [hnot])]
  · decide

/-- C5 witness: searching "xyz" in a file holding "hello world" fails
with contentNotFound and the filesystem value is returned unchanged. -/
theorem c5_modify_content_not_found_witness :
    modifyFile [(["a", "f"], .file "hello world")] ["a", "f"] "xyz" "r" =
      ([(["a", "f"], .file "hello world")], .error .contentNotFound) :=
  (c5_modify_content_not_found [(["a", "f"], .file "hello world")]
    ["a", "f"] "hello world" "xyz" "r" (by rfl) (by decide)).1

/-- C6: create_directory succeeds on a non-existent path and succeeds
again once the path exists as a directory; on an existing directory it
is a no-op success; and it fails exactly when the path exists as a
non-directory. -/
theorem c6_create_directory_idempotent (fs : FS) (p : List String) :
    (lookupFS fs p = none →
      (createDirectory fs p).2 = .ok ()
      ∧ (createDirectory (createDirectory fs p).1 p).2 = .ok ())
    ∧ (lookupFS fs p = some .dir → createDirectory fs p = (fs, .ok ()))
    ∧ ((∃ e, (createDirectory fs p).2 = .error e) ↔
        ∃ c, lookupFS fs p = some (.file c)) := by
  refine ⟨?_, ?_, ?_, ?_⟩
  · intro h
    refine ⟨by simp [createDirectory, h], ?_⟩
    simp [createDirectory, h, lookupFS_storeFS_self]
  · intro h
    simp [createDirectory, h]
  · rintro ⟨e, he⟩
    cases hl : lookupFS fs p with
    | none => simp [createDirectory, hl] at he
    | some entry =>
      cases entry with
      | dir => simp [createDirectory, hl] at he
      | file c => exact ⟨c, rfl⟩
  · rintro ⟨c, hc⟩
    exact ⟨.alreadyExists, by simp [createDirectory, hc]⟩

/-- C6 witness: creating a directory twice from an empty filesystem
succeeds both times; creating over an existing file fails. -/
theorem c6_create_directory_idempotent_witness :
    ((createDirectory ([] : FS) ["a"]).2 = .ok ()
      ∧ (createDirectory (createDirectory ([] : FS) ["a"]).1 ["a"]).2 =
          .ok ())
    ∧ ((∃ e, (createDirectory [(["b"], Entry.file "x")] ["b"]).2 =
          .error e) ↔
        ∃ c, lookupFS [(["b"], Entry.file "x")] ["b"] =
          some (.file c)) :=
  ⟨(c6_create_directory_idempotent ([] : FS) ["a"]).1 (by rfl),
    (c6_create_directory_idempotent [(["b"], Entry.file "x")] ["b"]).2.2⟩

/-- Every entry rendered with a remaining depth budget of zero has no
children. -/
theorem entryChildren_treeRender_zero (n : FsNode) :
    entryChildren (treeRender 0 n) = [] := by
  cases n <;> rfl

/-- A tree rendered with depth bound `d` respects the bound `d`. -/
theorem entryWithinDepth_treeRender (d : Nat) :
    ∀ n : FsNode, entryWithinDepth d (treeRender d n) = true := by
  induction d with
  | zero => intro n; cases n <;> rfl
  | succ d ih =>
    intro n
    cases n with
    | file name => rfl
    | symlink name => rfl
    | dir name cs =>
      simp only [treeRender, entryWithinDepth, List.all_eq_true]
      intro x hx
      rcases List.mem_map.mp hx with ⟨y, hy, rfl⟩
      exact ih y

/-- C7: a tree rendered with depth bound d contains no entry deeper than
d levels below the root; in particular with max_depth = 1 every child of
the root is rendered without children of its own. -/
theorem c7_tree_depth_bound (d : Nat) (n : FsNode) :
    entryWithinDepth d (treeRender d n) = true
    ∧ (entryChildren (treeRender 1 n)).all
        (fun c => (entryChildren c).isEmpty) = true := by
  refine ⟨entryWithinDepth_treeRender d n, ?_⟩
  cases n with
  | file name => rfl
  | symlink name => rfl
  | dir name cs =>
    simp only [treeRender, entryChildren, List.all_eq_true]
    intro x hx
    rcases List.mem_map.mp hx with ⟨y, hy, rfl⟩
    rw [List.isEmpty_iff]
    cases y <;> rfl

/-- C8: when the executable path is known and the config file is missing
or unparsable, loadConfig succeeds with the default configuration, whose
allowed-directory list is exactly ["."]; loadConfig errors exactly when
the executable path cannot be determined. -/
theorem c8_load_config_defaults (execPath : Option (List String))
    (decodeResult : Option Config) :
    (∀ p, execPath = some p → decodeResult = none →
      loadConfig execPath decodeResult = .ok defaultConfig
      ∧ defaultConfig.directories.allowed = ["."])
    ∧ ((∃ e, loadConfig execPath decodeResult = .error e) ↔
        execPath = none) := by
  refine ⟨?_, ?_, ?_⟩
  · rintro p rfl rfl
    exact ⟨rfl, rfl⟩
  · rintro ⟨e, he⟩
    cases execPath with
    | none => rfl
    | some p =>
      cases decodeResult with
      | none => simp [loadConfig] at he
      | some c => simp [loadConfig] at he
  · rintro rfl
    exact ⟨"failed to get executable path", rfl⟩

/-- C8 witness: with a known executable path and a failed config decode,
loadConfig returns the default configuration with allowed list ["."];
with an unknown executable path it errors. -/
theorem c8_load_config_defaults_witness :
    (loadConfig (some ["c", "srv"]) none = .ok defaultConfig
      ∧ defaultConfig.directories.allowed = ["."])
    ∧ ((∃ e, loadConfig none none = .error e) ↔
        (none : Option (List String)) = none) :=
  ⟨(c8_load_config_defaults (some ["c", "srv"]) none).1 ["c", "srv"]
      rfl rfl,
    (c8_load_config_defaults none none).2⟩

/-- The sink chosen by setupLogger is either the discard sink or a log
file at the join of the executable's directory with the configured file
path or with the derived executable-name log file. -/
theorem setupLogger_sink_cases (openOk : List String → Bool)
    (execPath : Option (List String)) (config : Config) :
    (setupLogger openOk execPath config).sink = LogSink.discard
    ∨ ∃ segs, execPath = some segs ∧
        ((setupLogger openOk execPath config).sink =
            LogSink.file (joinPath segs.dropLast config.logging.filePath)
          ∨ (setupLogger openOk execPath config).sink =
            LogSink.file
              (joinPath segs.dropLast (logFileNameOf (segs.getLastD "")))) := by
  cases execPath with
  | none => exact .inl rfl
  | some segs =>
    simp only [setupLogger]
    repeat' split
    all_goals
      first
      | exact .inl rfl
      | exact .inr ⟨segs, rfl, .inl rfl⟩
      | exact .inr ⟨segs, rfl, .inr rfl⟩

/-- The level carried by the logger is the parsed configured level, or
the info default when the executable path is unknown. -/
theorem setupLogger_level_cases (openOk : List String → Bool)
    (execPath : Option (List String)) (config : Config) :
    (setupLogger openOk execPath config).level =
      parseLogLevel config.logging.level
    ∨ (setupLogger openOk execPath config).level = LogLevel.info := by
  cases execPath with
  | none => exact .inr rfl
  | some segs =>
    simp only [setupLogger]
    repeat' split
    all_goals exact .inl rfl

/-- C9 counterexample: the claim "the handler writes either to a log
file in the executable's directory or to io.Discard" fails on the code —
with the configured file_path "logs/app.log" (the deployment the build
script prepares by creating bin/logs) the log file lands in the logs
subdirectory, whose parent directory differs from the executable's
directory ["c"]. -/
theorem c9_setup_logger_sink_level_counterexample :
    (setupLogger (fun _ => true) (some ["c", "srv.exe"])
        { directories := { allowed := ["."] },
          logging :=
            { level := "info", format := "json", output := "file",
              filePath := "logs/app.log" } }).sink =
      LogSink.file ["c", "logs", "app.log"]
    ∧ (["c", "logs", "app.log"] : List String).dropLast ≠
        (["c", "srv.exe"] : List String).dropLast := by
  exact ⟨by rfl, by decide⟩

/-- C9 (amended): the logger built by setupLogger writes either to the
discard sink or to a log file at filepath.Join of the executable's
directory with the configured file path or the derived executable-name
log file (a location inside the executable's directory only when that
path is a single plain segment, as the default is) — never to stdout or
stderr — and a configured level string other than
debug/info/warn/error yields the info level. -/
theorem c9_setup_logger_sink_level_amended (openOk : List String → Bool)
    (execPath : Option (List String)) (config : Config) :
    ((setupLogger openOk execPath config).sink ≠ LogSink.stdoutSink
      ∧ (setupLogger openOk execPath config).sink ≠ LogSink.stderrSink)
    ∧ (∀ p, (setupLogger openOk execPath config).sink = LogSink.file p →
        ∃ segs, execPath = some segs ∧
          (p = joinPath segs.dropLast config.logging.filePath
            ∨ p = joinPath segs.dropLast (logFileNameOf (segs.getLastD ""))))
    ∧ (config.logging.level ≠ "debug" → config.logging.level ≠ "info" →
        config.logging.level ≠ "warn" → config.logging.level ≠ "error" →
        (setupLogger openOk execPath config).level = LogLevel.info) := by
  refine ⟨?_, ?_, ?_⟩
  · rcases setupLogger_sink_cases openOk execPath config with
      h | ⟨segs, hexec, h | h⟩ <;> rw [h] <;> exact ⟨by simp, by simp⟩
  · intro p hp
    rcases setupLogger_sink_cases openOk execPath config with
      h | ⟨segs, hexec, h | h⟩
    · rw [h] at hp
      cases hp
    · rw [h] at hp
      exact ⟨segs, hexec, .inl (LogSink.file.inj hp).symm⟩
    · rw [h] at hp
      exact ⟨segs, hexec, .inr (LogSink.file.inj hp).symm⟩
  · intro h1 h2 h3 h4
    rcases setupLogger_level_cases openOk execPath config with h | h
    · rw [h]
      simp [parseLogLevel, h1, h2, h3, h4]
    · exact h

/-- C9 (amended) witness: with executable /c/srv.exe and file_path
"logs/app.log" the sink is the joined path ["c", "logs", "app.log"];
with an unrecognized level string the level falls back to info. -/
theorem c9_setup_logger_sink_level_amended_witness :
    (∃ segs, (some ["c", "srv.exe"]) = some segs ∧
      ((["c", "logs", "app.log"] : List String) =
          joinPath segs.dropLast "logs/app.log"
        ∨ (["c", "logs", "app.log"] : List String) =
          joinPath segs.dropLast (logFileNameOf (segs.getLastD ""))))
    ∧ (setupLogger (fun _ => true) (some ["c", "srv.exe"])
        { directories := { allowed := ["."] },
          logging :=
            { level := "weird", format := "json", output := "file",
              filePath := "y" } }).level = LogLevel.info :=
  ⟨(c9_setup_logger_sink_level_amended (fun _ => true)
        (some ["c", "srv.exe"])
        { directories := { allowed := ["."] },
          logging :=
            { level := "info", format := "json", output := "file",
              filePath := "logs/app.log" } }).2.1
      ["c", "logs", "app.log"] (by rfl),
    (c9_setup_logger_sink_level_amended (fun _ => true)
        (some ["c", "srv.exe"])
        { directories := { allowed := ["."] },
          logging :=
            { level := "weird", format := "json", output := "file",
              filePath := "y" } }).2.2
      (by decide) (by decide) (by decide) (by decide)⟩

/-- C10: the filesystem server is only ever constructed with a non-empty
allowed-directory list — in the config-driven main an empty configured
list exits before NewFilesystemServer is called, and in the CLI variant
both an empty argument list and any argument starting with "-" exit
before NewFilesystemServer is called. -/
theorem c10_server_only_with_nonempty_dirs :
    (∀ (execPath : Option (List String)) (decodeResult : Option Config)
        (dirs : List String),
      mainTomlOutcome execPath decodeResult =
        .calledNewFilesystemServer dirs → dirs ≠ [])
    ∧ (∀ (execPath : Option (List String)) (decodeResult : Option Config)
        (config : Config),
        loadConfig execPath decodeResult = .ok config →
        config.directories.allowed = [] →
        mainTomlOutcome execPath decodeResult = .exitedBeforeServer)
    ∧ (∀ (args dirs : List String),
        mainCliOutcome args = .calledNewFilesystemServer dirs →
        dirs ≠ [])
    ∧ mainCliOutcome [] = .exitedBeforeServer
    ∧ (∀ (args : List String) (a : String), a ∈ args →
        strStartsWith a "-" = true →
        mainCliOutcome args = .exitedBeforeServer) := by
  refine ⟨?_, ?_, ?_, ?_, ?_⟩
  · intro execPath decodeResult dirs h
    cases hl : loadConfig execPath decodeResult with
    | error e => simp [mainTomlOutcome, hl] at h
    | ok config =>
      by_cases hz : config.directories.allowed.length = 0
      · simp [mainTomlOutcome, hl, hz] at h
      · have hout : mainTomlOutcome execPath decodeResult =
            MainOutcome.calledNewFilesystemServer
              config.directories.allowed := by
          simp [mainTomlOutcome, hl, hz]
        rw [hout] at h
        have hd : config.directories.allowed = dirs :=
          MainOutcome.calledNewFilesystemServer.inj h
        intro hnil
        apply hz
        rw [hd, hnil]
        rfl
  · intro execPath decodeResult config hload hallow
    simp [mainTomlOutcome, hload, hallow]
  · intro args dirs h
    by_cases hlen : args.length < 1
    · simp [mainCliOutcome, hlen] at h
    · cases hc : collectValidDirs args with
      | none => simp [mainCliOutcome, hlen, hc] at h
      | some ds =>
        have hout : mainCliOutcome args =
            MainOutcome.calledNewFilesystemServer ds := by
          simp [mainCliOutcome, hlen, hc]
        rw [hout] at h
        have hds : ds = dirs := MainOutcome.calledNewFilesystemServer.inj h
        have hargs : ds = args := collectValidDirs_some args ds hc
        intro hnil
        apply hlen
        rw [← hargs, hds, hnil]
        decide
  · decide
  · intro args a hmem hflag
    by_cases hlen : args.length < 1
    · simp [mainCliOutcome, hlen]
    · simp [mainCliOutcome, hlen,
        collectValidDirs_flag args a hmem hflag]

/-- C10 witness: an empty configured allowed list exits before the
server is constructed, and a flag-like CLI argument exits before the
server is constructed. -/
theorem c10_server_only_with_nonempty_dirs_witness :
    mainTomlOutcome (some ["c", "srv"]) (some { directories := { allowed := [] }, logging := defaultConfig.logging }) =
      .exitedBeforeServer
    ∧ mainCliOutcome ["-h"] = .exitedBeforeServer :=
  ⟨c10_server_only_with_nonempty_dirs.2.1 (some ["c", "srv"])
      (some { directories := { allowed := [] }, logging := defaultConfig.logging }) { directories := { allowed := [] }, logging := defaultConfig.logging } (by rfl) (by rfl),
    c10_server_only_with_nonempty_dirs.2.2.2.2 ["-h"] "-h"
      (by decide) (by decide)⟩

end FilesystemServer
